import Mathlib

/-!
Verification of the SQL AST layer in `src/parser/node.h` (namespace
`fesql::parser`): the node kind enumeration, the intrusive owning node list
(`SQLNodeList` over `SQLLinkedNode` cells), the window-frame sub-model, the
literal node, the select statement, and the recursive debug printer.

The embedding is shallow and faithful to the source:
* the intrusive linked list is modelled over an explicit heap of linked cells,
  so that the tail-splicing of `AppendNodeList` (which mutates the cell the
  target's `tail_` points to) and the resulting aliasing are captured exactly;
* the debug printer is transcribed statement by statement into functions that
  build the output `String`;
* constructors that leave a pointer member uninitialized are modelled by an
  explicit `indeterminate` initialization state.
-/

/-- `SQLNodeType` from node.h, in declaration order. -/
inductive SQLNodeType where
  | kSelectStmt
  | kExpr
  | kResTarget
  | kTable
  | kFunc
  | kWindowDef
  | kFrameBound
  | kFrames
  | kColumn
  | kConst
  | kLimit
  | kAll
  | kList
  | kOrderBy
  | kNull
  | kInt
  | kBigInt
  | kFloat
  | kDouble
  | kString
  | kDesc
  | kAsc
  | kFrameRange
  | kFrameRows
  | kPreceding
  | kFollowing
  | kCurrent
  | kUnknow
deriving DecidableEq

/-- Modelled from the spec: `NameOfSQLNodeType` is only declared in node.h; its
definition lives in the repository's node.cc, which is not among the provided
sources.  The spec's print contract says output "begins with the node kind's
name" and its frame examples name the kinds `ROWS`, `RANGE`, `PRECEDING`,
`FOLLOWING` and `CURRENT`; the remaining kinds keep their enumerator names.
All that matters below is that each kind has a fixed nonempty name that does
not start with the `SPACE_ST` character. -/
def NameOfSQLNodeType : SQLNodeType → String
  | .kSelectStmt => "kSelectStmt"
  | .kExpr => "kExpr"
  | .kResTarget => "kResTarget"
  | .kTable => "kTable"
  | .kFunc => "kFunc"
  | .kWindowDef => "kWindowDef"
  | .kFrameBound => "kFrameBound"
  | .kFrames => "kFrames"
  | .kColumn => "kColumn"
  | .kConst => "kConst"
  | .kLimit => "kLimit"
  | .kAll => "kAll"
  | .kList => "kList"
  | .kOrderBy => "kOrderBy"
  | .kNull => "kNull"
  | .kInt => "kInt"
  | .kBigInt => "kBigInt"
  | .kFloat => "kFloat"
  | .kDouble => "kDouble"
  | .kString => "kString"
  | .kDesc => "kDesc"
  | .kAsc => "kAsc"
  | .kFrameRange => "RANGE"
  | .kFrameRows => "ROWS"
  | .kPreceding => "PRECEDING"
  | .kFollowing => "FOLLOWING"
  | .kCurrent => "CURRENT"
  | .kUnknow => "kUnknow"

/-! ## The intrusive linked list of `SQLNodeList` / `SQLLinkedNode`

`SQLLinkedNode` holds a `SQLNode *node_ptr_` and a `SQLLinkedNode *next_`.
We model the linked cells in an explicit heap: a cell is addressed by a `Nat`
pointer, its payload `node_ptr_` is abstracted to a `Nat` identity (no claim
about the list inspects the payload beyond identity), and `next_` is an
`Option Nat` (`none` = `NULL`).  Allocation appends to the heap; the only
mutation the source performs on an existing cell is `tail_->next_ = ...`,
modelled by `Heap.setNext`. -/

/-- One `SQLLinkedNode` cell: the identity of the owned `SQLNode` and the
`next_` pointer. -/
structure SQLLinkedNode where
  nodeId : Nat
  next : Option Nat
deriving DecidableEq

/-- The heap of linked cells; cell `p` is `cells[p]?`. -/
structure Heap where
  cells : List SQLLinkedNode
deriving DecidableEq

def Heap.get (h : Heap) (p : Nat) : Option SQLLinkedNode :=
  h.cells[p]?

/-- Allocate a fresh cell (`new SQLLinkedNode(...)`), returning its address. -/
def Heap.alloc (h : Heap) (c : SQLLinkedNode) : Heap × Nat :=
  (⟨h.cells ++ [c]⟩, h.cells.length)

/-- Overwrite the `next_` field of the cell at index `t`. -/
def setNextCells : List SQLLinkedNode → Nat → Option Nat → List SQLLinkedNode
  | [], _, _ => []
  | c :: cs, 0, v => { c with next := v } :: cs
  | c :: cs, t + 1, v => c :: setNextCells cs t v

/-- `tail_->next_ = v`, as a heap operation. -/
def Heap.setNext (h : Heap) (t : Nat) (v : Option Nat) : Heap :=
  ⟨setNextCells h.cells t v⟩

/-- The three fields of `SQLNodeList`: `head_`, `tail_`, `size_`. -/
structure SQLNodeList where
  head : Option Nat
  tail : Option Nat
  size : Nat
deriving DecidableEq

/-- `SQLNodeList()` : size 0, null head and tail. -/
def SQLNodeList.new : SQLNodeList := ⟨none, none, 0⟩

/-- `SQLNodeList::PushFront(node_ptr)`: allocate a linked cell whose `next_` is
the old head, make it the head, bump the size, and set `tail_` to the new head
if `tail_` was `NULL`. -/
def PushFront (h : Heap) (l : SQLNodeList) (nodeId : Nat) : Heap × SQLNodeList :=
  let hp := h.alloc ⟨nodeId, l.head⟩
  (hp.1,
    { head := some hp.2
      tail := match l.tail with
              | none => some hp.2
              | some t => some t
      size := l.size + 1 })

/-- `SQLNodeList::AppendNodeList(node_list_ptr)`, transcribed branch by branch:
* a `NULL` argument is an early return;
* if the target's `tail_` is `NULL`, the target adopts the source's `head_` as
  both `head_` and `tail_` (the source reads `tail_ = head_;`) and copies the
  source's `size_`;
* otherwise the cell at `tail_` gets its `next_` redirected to the source's
  `head_`, `tail_` becomes the source's `tail_`, and the sizes are added. -/
def AppendNodeList (h : Heap) (l : SQLNodeList) (src : Option SQLNodeList) :
    Heap × SQLNodeList :=
  match src with
  | none => (h, l)
  | some b =>
    match l.tail with
    | none => (h, { head := b.head, tail := b.head, size := b.size })
    | some t => (h.setNext t b.head, { head := l.head, tail := b.tail, size := l.size + b.size })

/-- `SQLNodeList::GetHead()`. -/
def SQLNodeList.GetHead (l : SQLNodeList) : Option Nat := l.head

/-- `chainB h p ps` holds when `ps` is exactly the list of cell addresses
visited by following `next_` pointers from `p` until `NULL` — the front-to-back
traversal order of the list. -/
def chainB (h : Heap) : Option Nat → List Nat → Bool
  | none, [] => true
  | none, _ :: _ => false
  | some _, [] => false
  | some p, q :: ps =>
    if p = q then
      match h.get p with
      | none => false
      | some c => chainB h c.next ps
    else false

/-- The payload identity stored at cell `p`, if the cell exists. -/
def nodeIdAt (h : Heap) (p : Nat) : Option Nat :=
  (h.get p).map SQLLinkedNode.nodeId

/-- The payloads of a traversal, front to back. -/
def elemsOf (h : Heap) (ps : List Nat) : List (Option Nat) :=
  ps.map (nodeIdAt h)

/-- The address of the last cell of a traversal (`none` for the empty list). -/
def lastPtr : List Nat → Option Nat
  | [] => none
  | [p] => some p
  | _ :: p :: ps => lastPtr (p :: ps)

/-- A `SQLNodeList` is well formed with traversal `ps` when `ps` is the chain
of cells from `head_`, `size_` counts it, `tail_` addresses its last cell, and
no cell is visited twice. -/
def WFList (h : Heap) (l : SQLNodeList) (ps : List Nat) : Prop :=
  chainB h l.head ps = true ∧ l.size = ps.length ∧ l.tail = lastPtr ps ∧ ps.Nodup

/-- Executable traversal with fuel, used to evaluate concrete states. -/
def traverseFuel (h : Heap) : Nat → Option Nat → List Nat
  | 0, _ => []
  | _, none => []
  | fuel + 1, some p =>
    match h.get p with
    | none => []
    | some c => c.nodeId :: traverseFuel h fuel c.next

/-! ## Heap and chain lemmas -/

theorem setNextCells_get_self (cs : List SQLLinkedNode) (t : Nat) (v : Option Nat) :
    (setNextCells cs t v)[t]? = (cs[t]?).map (fun c => { c with next := v }) := by
  induction cs generalizing t with
  | nil => simp [setNextCells]
  | cons c cs ih =>
    cases t with
    | zero => simp [setNextCells]
    | succ t => simpa [setNextCells] using ih t

theorem setNextCells_get_ne (cs : List SQLLinkedNode) (t q : Nat) (v : Option Nat)
    (hne : q ≠ t) : (setNextCells cs t v)[q]? = cs[q]? := by
  induction cs generalizing t q with
  | nil => simp [setNextCells]
  | cons c cs ih =>
    cases t with
    | zero =>
      cases q with
      | zero => exact absurd rfl hne
      | succ q => simp [setNextCells]
    | succ t =>
      cases q with
      | zero => simp [setNextCells]
      | succ q => simpa [setNextCells] using ih t q (fun hh => hne (by rw [hh]))

theorem get_setNext_ne (h : Heap) (t q : Nat) (v : Option Nat) (hne : q ≠ t) :
    (h.setNext t v).get q = h.get q :=
  setNextCells_get_ne h.cells t q v hne

theorem get_setNext_self (h : Heap) (t : Nat) (v : Option Nat) :
    (h.setNext t v).get t = (h.get t).map (fun c => { c with next := v }) :=
  setNextCells_get_self h.cells t v

theorem nodeIdAt_setNext (h : Heap) (t : Nat) (v : Option Nat) (q : Nat) :
    nodeIdAt (h.setNext t v) q = nodeIdAt h q := by
  by_cases hq : q = t
  · subst hq
    rw [nodeIdAt, get_setNext_self, nodeIdAt]
    cases h.get q <;> rfl
  · rw [nodeIdAt, get_setNext_ne h t q v hq, nodeIdAt]

theorem elemsOf_setNext (h : Heap) (t : Nat) (v : Option Nat) (ps : List Nat) :
    elemsOf (h.setNext t v) ps = elemsOf h ps := by
  induction ps with
  | nil => rfl
  | cons p ps ih =>
    simp only [elemsOf, List.map_cons] at ih ⊢
    rw [nodeIdAt_setNext, ih]

theorem chainB_setNext_outside (h : Heap) (t : Nat) (v : Option Nat) :
    ∀ (ps : List Nat) (op : Option Nat), t ∉ ps →
      chainB (h.setNext t v) op ps = chainB h op ps := by
  intro ps
  induction ps with
  | nil => intro op _; cases op <;> rfl
  | cons q ps ih =>
    intro op hmem
    cases op with
    | none => rfl
    | some p =>
      by_cases hpq : p = q
      · subst hpq
        have hpt : p ≠ t := fun hh => hmem (by simp [hh])
        have ht' : t ∉ ps := fun hh => hmem (List.mem_cons_of_mem _ hh)
        rw [chainB, chainB, if_pos rfl, if_pos rfl, get_setNext_ne h t p v hpt]
        cases h.get p with
        | none => rfl
        | some c => exact ih c.next ht'
      · rw [chainB, chainB, if_neg hpq, if_neg hpq]

theorem lastPtr_eq_none : ∀ {ps : List Nat}, lastPtr ps = none → ps = []
  | [], _ => rfl
  | [p], hp => by simp [lastPtr] at hp
  | p :: q :: ps, hp =>
    absurd (@lastPtr_eq_none (q :: ps) (by simpa [lastPtr] using hp)) (by simp)

theorem lastPtr_mem : ∀ {ps : List Nat} {t : Nat}, lastPtr ps = some t → t ∈ ps
  | [], _, hp => by simp [lastPtr] at hp
  | [p], _, hp => by simp [lastPtr] at hp; simp [hp]
  | p :: q :: ps, t, hp =>
    List.mem_cons_of_mem _ (@lastPtr_mem (q :: ps) t (by simpa [lastPtr] using hp))

theorem chainB_splice (h : Heap) (bh : Option Nat) (qs : List Nat)
    (hq : chainB h bh qs = true) :
    ∀ (ps : List Nat) (op : Option Nat) (t : Nat),
      chainB h op ps = true → lastPtr ps = some t → ps.Nodup →
      (∀ x ∈ qs, x ∉ ps) →
      chainB (h.setNext t bh) op (ps ++ qs) = true := by
  intro ps
  induction ps with
  | nil => intro op t _ hlast _ _; simp [lastPtr] at hlast
  | cons p ps ih =>
    intro op t hchain hlast hnodup hdisj
    cases op with
    | none => simp [chainB] at hchain
    | some x =>
      by_cases hxp : x = p
      · subst hxp
        rcases hcg : h.get x with _ | c
        · rw [chainB, if_pos rfl, hcg] at hchain; exact absurd hchain (by simp)
        · have hnext : chainB h c.next ps = true := by
            rw [chainB, if_pos rfl, hcg] at hchain; exact hchain
          cases ps with
          | nil =>
            have htx : t = x := by simp [lastPtr] at hlast; omega
            subst htx
            have hxqs : t ∉ qs := fun hmem => (hdisj t hmem) (by simp)
            rw [List.cons_append, List.nil_append, chainB, if_pos rfl,
              get_setNext_self, hcg]
            simpa using (chainB_setNext_outside h t bh qs bh hxqs).trans hq
          | cons r ps' =>
            have hlast' : lastPtr (r :: ps') = some t := by
              simpa [lastPtr] using hlast
            have hxmem : x ∉ r :: ps' := (List.nodup_cons.mp hnodup).1
            have hnodup' : (r :: ps').Nodup := (List.nodup_cons.mp hnodup).2
            have hxt : x ≠ t := fun hh => hxmem (hh ▸ lastPtr_mem hlast')
            have hdisj' : ∀ y ∈ qs, y ∉ r :: ps' := fun y hy =>
              fun hmem => (hdisj y hy) (List.mem_cons_of_mem _ hmem)
            rw [List.cons_append, chainB, if_pos rfl, get_setNext_ne h t x bh hxt, hcg]
            exact ih c.next t hnext hlast' hnodup' hdisj'
      · rw [chainB, if_neg hxp] at hchain; exact absurd hchain (by simp)

theorem chainB_nil_none {h : Heap} {op : Option Nat} (hc : chainB h op [] = true) :
    op = none := by
  cases op with
  | none => rfl
  | some p => simp [chainB] at hc

instance (h : Heap) (l : SQLNodeList) (ps : List Nat) : Decidable (WFList h l ps) := by
  unfold WFList
  infer_instance

/-! ## Claims about `AppendNodeList` -/

/-- C1: appending list B (size m, traversal `qs`) onto list A (size n,
traversal `ps`) yields reported size n + m, and the front-to-back traversal
from A's head visits A's cells then B's cells, with the stored payloads
unchanged — A's elements in order followed by B's elements in order. -/
theorem appendNodeList_correct (h : Heap) (a b : SQLNodeList) (ps qs : List Nat)
    (ha : WFList h a ps) (hb : WFList h b qs) (hdisj : ∀ x ∈ qs, x ∉ ps) :
    (AppendNodeList h a (some b)).2.size = a.size + b.size ∧
    chainB (AppendNodeList h a (some b)).1 (AppendNodeList h a (some b)).2.head
      (ps ++ qs) = true ∧
    elemsOf (AppendNodeList h a (some b)).1 (ps ++ qs) =
      elemsOf h ps ++ elemsOf h qs := by
  obtain ⟨hac, has, hat, hand⟩ := ha
  obtain ⟨hbc, hbs, hbt, hbnd⟩ := hb
  cases hta : a.tail with
  | none =>
    have hps : ps = [] := lastPtr_eq_none (hat.symm.trans hta)
    subst hps
    have has0 : a.size = 0 := by simpa using has
    refine ⟨?_, ?_, ?_⟩
    · simp only [AppendNodeList, hta, has0]
      omega
    · simpa [AppendNodeList, hta] using hbc
    · simp [AppendNodeList, hta, elemsOf]
  | some t =>
    have hlast : lastPtr ps = some t := hat.symm.trans hta
    refine ⟨?_, ?_, ?_⟩
    · simp [AppendNodeList, hta]
    · simpa [AppendNodeList, hta] using
        chainB_splice h b.head qs hbc ps a.head t hac hlast hand hdisj
    · simp only [AppendNodeList, hta]
      rw [elemsOf_setNext]
      simp [elemsOf]

/-- Concrete states for the closed instances below: a two-element list A with
payload identities 10 (front) and 11 pushed in front of it, and a one-element
list B with payload identity 20, all in one heap. -/
def cList1 : Heap × SQLNodeList := PushFront ⟨[]⟩ SQLNodeList.new 10

def cListA : Heap × SQLNodeList := PushFront cList1.1 cList1.2 11

def cListB : Heap × SQLNodeList := PushFront cListA.1 SQLNodeList.new 20

/-- Witness for C1 at the concrete lists A (traversal cells [1, 0]) and
B (traversal cell [2]). -/
theorem appendNodeList_correct_witness :
    (WFList cListB.1 cListA.2 [1, 0] ∧ WFList cListB.1 cListB.2 [2] ∧
      (∀ x ∈ ([2] : List Nat), x ∉ ([1, 0] : List Nat))) ∧
    ((AppendNodeList cListB.1 cListA.2 (some cListB.2)).2.size =
        cListA.2.size + cListB.2.size ∧
      chainB (AppendNodeList cListB.1 cListA.2 (some cListB.2)).1
        (AppendNodeList cListB.1 cListA.2 (some cListB.2)).2.head ([1, 0] ++ [2]) = true ∧
      elemsOf (AppendNodeList cListB.1 cListA.2 (some cListB.2)).1 ([1, 0] ++ [2]) =
        elemsOf cListB.1 [1, 0] ++ elemsOf cListB.1 [2]) :=
  ⟨⟨by decide, by decide, by decide⟩,
    appendNodeList_correct cListB.1 cListA.2 cListB.2 [1, 0] [2]
      (by decide) (by decide) (by decide)⟩

/-- C10: `AppendNodeList` never writes to the source list object `B`: it only
reads `B`'s `head_`, `tail_` and `size_` (in the model the operation returns a
new target and heap and leaves the `SQLNodeList` value `b` untouched), and the
one heap mutation it performs hits the target's tail cell, which lies outside
`B`'s chain.  Hence after the call `B`'s chain from `GetHead` still traverses
exactly `B`'s cells with unchanged payloads, and those same cells are also
reachable from `A`'s head, after `A`'s own cells. -/
theorem appendNodeList_source_intact (h : Heap) (a b : SQLNodeList) (ps qs : List Nat)
    (ha : WFList h a ps) (hb : WFList h b qs) (hdisj : ∀ x ∈ qs, x ∉ ps) :
    chainB (AppendNodeList h a (some b)).1 b.GetHead qs = true ∧
    elemsOf (AppendNodeList h a (some b)).1 qs = elemsOf h qs ∧
    chainB (AppendNodeList h a (some b)).1 (AppendNodeList h a (some b)).2.head
      (ps ++ qs) = true := by
  obtain ⟨hac, has, hat, hand⟩ := ha
  obtain ⟨hbc, hbs, hbt, hbnd⟩ := hb
  cases hta : a.tail with
  | none =>
    have hps : ps = [] := lastPtr_eq_none (hat.symm.trans hta)
    subst hps
    refine ⟨?_, ?_, ?_⟩
    · simpa [AppendNodeList, hta, SQLNodeList.GetHead] using hbc
    · simp [AppendNodeList, hta]
    · simpa [AppendNodeList, hta] using hbc
  | some t =>
    have hlast : lastPtr ps = some t := hat.symm.trans hta
    have htps : t ∈ ps := lastPtr_mem hlast
    have htqs : t ∉ qs := fun hmem => (hdisj t hmem) htps
    refine ⟨?_, ?_, ?_⟩
    · simp only [AppendNodeList, hta, SQLNodeList.GetHead]
      rw [chainB_setNext_outside h t b.head qs b.head htqs]
      exact hbc
    · simp only [AppendNodeList, hta]
      exact elemsOf_setNext h t b.head qs
    · simpa [AppendNodeList, hta] using
        chainB_splice h b.head qs hbc ps a.head t hac hlast hand hdisj

/-- Witness for C10 at the same concrete lists as the C1 witness. -/
theorem appendNodeList_source_intact_witness :
    (WFList cListB.1 cListA.2 [1, 0] ∧ WFList cListB.1 cListB.2 [2] ∧
      (∀ x ∈ ([2] : List Nat), x ∉ ([1, 0] : List Nat))) ∧
    (chainB (AppendNodeList cListB.1 cListA.2 (some cListB.2)).1
        cListB.2.GetHead [2] = true ∧
      elemsOf (AppendNodeList cListB.1 cListA.2 (some cListB.2)).1 [2] =
        elemsOf cListB.1 [2] ∧
      chainB (AppendNodeList cListB.1 cListA.2 (some cListB.2)).1
        (AppendNodeList cListB.1 cListA.2 (some cListB.2)).2.head ([1, 0] ++ [2]) = true) :=
  ⟨⟨by decide, by decide, by decide⟩,
    appendNodeList_source_intact cListB.1 cListA.2 cListB.2 [1, 0] [2]
      (by decide) (by decide) (by decide)⟩

/-- C7 counterexample: appending a non-null but empty list onto the non-empty
one-element list A is not a state-preserving no-op: the call overwrites A's
`tail_` with the empty source's `NULL` `tail_`, so the resulting `SQLNodeList`
differs from the original (its tail pointer is gone) even though size and
traversal are unchanged. -/
theorem appendNodeList_empty_not_noop :
    (AppendNodeList cList1.1 cList1.2 (some SQLNodeList.new)).2 ≠ cList1.2 ∧
    (AppendNodeList cList1.1 cList1.2 (some SQLNodeList.new)).2.tail = none ∧
    cList1.2.tail = some 0 ∧
    (AppendNodeList cList1.1 cList1.2 (some SQLNodeList.new)).2.size = cList1.2.size := by
  decide

/-- C7 as amended: appending `NULL` is a complete no-op; appending an empty
(non-null) list onto a non-empty target leaves the target's size, head and
traversal unchanged but overwrites its `tail_` with `NULL`; appending any list
onto an originally empty target adopts the source's head, elements and size,
with the target's `tail_` set to the source's head (not the source's tail). -/
theorem appendNodeList_edge_cases (h : Heap) (a b : SQLNodeList) (ps qs : List Nat)
    (ha : WFList h a ps) (hb : WFList h b qs) (hdisj : ∀ x ∈ qs, x ∉ ps) :
    AppendNodeList h a none = (h, a) ∧
    (qs = [] → ps ≠ [] →
      (AppendNodeList h a (some b)).2.size = a.size ∧
      (AppendNodeList h a (some b)).2.head = a.head ∧
      chainB (AppendNodeList h a (some b)).1 a.head ps = true ∧
      elemsOf (AppendNodeList h a (some b)).1 ps = elemsOf h ps ∧
      (AppendNodeList h a (some b)).2.tail = none) ∧
    (ps = [] →
      (AppendNodeList h a (some b)).1 = h ∧
      (AppendNodeList h a (some b)).2.head = b.head ∧
      (AppendNodeList h a (some b)).2.size = b.size ∧
      (AppendNodeList h a (some b)).2.tail = b.head) := by
  obtain ⟨hac, has, hat, hand⟩ := ha
  obtain ⟨hbc, hbs, hbt, hbnd⟩ := hb
  refine ⟨rfl, ?_, ?_⟩
  · intro hqs hps
    subst hqs
    have hbt0 : b.tail = none := by simpa [lastPtr] using hbt
    cases hta : a.tail with
    | none => exact absurd (lastPtr_eq_none (hat.symm.trans hta)) hps
    | some t =>
      have hlast : lastPtr ps = some t := hat.symm.trans hta
      refine ⟨?_, ?_, ?_, ?_, ?_⟩
      · simp only [AppendNodeList, hta, hbs]
        simp
      · simp [AppendNodeList, hta]
      · simpa [AppendNodeList, hta] using
          chainB_splice h b.head [] hbc ps a.head t hac hlast hand hdisj
      · simp only [AppendNodeList, hta]
        exact elemsOf_setNext h t b.head ps
      · simp [AppendNodeList, hta, hbt0]
  · intro hps
    subst hps
    have hta : a.tail = none := by simpa [lastPtr] using hat
    exact ⟨by simp [AppendNodeList, hta], by simp [AppendNodeList, hta],
      by simp [AppendNodeList, hta], by simp [AppendNodeList, hta]⟩

/-- Witness for the amended C7: A is the one-element list, B the empty list
(traversal `[]`); the second conjunct's antecedents hold here. -/
theorem appendNodeList_edge_cases_witness :
    (WFList cList1.1 cList1.2 [0] ∧ WFList cList1.1 SQLNodeList.new [] ∧
      (∀ x ∈ ([] : List Nat), x ∉ ([0] : List Nat))) ∧
    (AppendNodeList cList1.1 cList1.2 none = (cList1.1, cList1.2) ∧
      (([] : List Nat) = [] → ([0] : List Nat) ≠ [] →
        (AppendNodeList cList1.1 cList1.2 (some SQLNodeList.new)).2.size = cList1.2.size ∧
        (AppendNodeList cList1.1 cList1.2 (some SQLNodeList.new)).2.head = cList1.2.head ∧
        chainB (AppendNodeList cList1.1 cList1.2 (some SQLNodeList.new)).1
          cList1.2.head [0] = true ∧
        elemsOf (AppendNodeList cList1.1 cList1.2 (some SQLNodeList.new)).1 [0] =
          elemsOf cList1.1 [0] ∧
        (AppendNodeList cList1.1 cList1.2 (some SQLNodeList.new)).2.tail = none) ∧
      (([0] : List Nat) = [] →
        (AppendNodeList cList1.1 cList1.2 (some SQLNodeList.new)).1 = cList1.1 ∧
        (AppendNodeList cList1.1 cList1.2 (some SQLNodeList.new)).2.head =
          SQLNodeList.new.head ∧
        (AppendNodeList cList1.1 cList1.2 (some SQLNodeList.new)).2.size =
          SQLNodeList.new.size ∧
        (AppendNodeList cList1.1 cList1.2 (some SQLNodeList.new)).2.tail =
          SQLNodeList.new.head)) :=
  ⟨⟨by decide, by decide, by decide⟩,
    appendNodeList_edge_cases cList1.1 cList1.2 SQLNodeList.new [0] []
      (by decide) (by decide) (by decide)⟩

/-! ## C2: the size/traversal invariant across operation sequences

The sequence below uses only documented operations, each source list appended
exactly once and never reused: build `B = [101, 100]` by two `PushFront`s,
append `B` onto a fresh empty list `A` (the empty-target branch of
`AppendNodeList` runs `tail_ = head_;`, leaving `A`'s `tail_` on `B`'s FIRST
cell), build `C = [102]`, append `C` onto `A`.  The second append splices `C`
after `A`'s first cell, orphaning payload 100: `A` reports size 3 while only
2 elements are reachable from its head. -/

def bugStepB1 : Heap × SQLNodeList := PushFront ⟨[]⟩ SQLNodeList.new 100

def bugStepB : Heap × SQLNodeList := PushFront bugStepB1.1 bugStepB1.2 101

def bugStepA : Heap × SQLNodeList := AppendNodeList bugStepB.1 SQLNodeList.new (some bugStepB.2)

def bugStepC : Heap × SQLNodeList := PushFront bugStepA.1 SQLNodeList.new 102

def bugFinal : Heap × SQLNodeList := AppendNodeList bugStepC.1 bugStepA.2 (some bugStepC.2)

/-- C2 fails on the code: after the sequence above the list reports size 3,
but front-to-back traversal from its head reaches only the 2 elements
`[101, 102]` (payload 100 has been spliced out of the chain). -/
theorem sizeInvariant_violated :
    bugFinal.2.size = 3 ∧
    traverseFuel bugFinal.1 (bugFinal.1.cells.length + 1) bugFinal.2.head = [101, 102] ∧
    bugFinal.2.size ≠
      (traverseFuel bugFinal.1 (bugFinal.1.cells.length + 1) bugFinal.2.head).length := by
  decide

/-! ## String-inclusion helpers -/

/-- `small` occurs as a contiguous substring of `big`. -/
def strIncl (small big : String) : Prop := small.data <:+: big.data

instance (small big : String) : Decidable (strIncl small big) := by
  unfold strIncl
  infer_instance

theorem strIncl_self (s : String) : strIncl s s := List.infix_refl _

theorem strIncl_appL (s a b : String) (h : strIncl s b) : strIncl s (a ++ b) := by
  obtain ⟨u, v, huv⟩ := h
  refine ⟨a.data ++ u, v, ?_⟩
  rw [String.data_append, ← huv]
  simp [List.append_assoc]

theorem strIncl_appR (s a b : String) (h : strIncl s a) : strIncl s (a ++ b) := by
  obtain ⟨u, v, huv⟩ := h
  refine ⟨u, v ++ b.data, ?_⟩
  rw [String.data_append, ← huv]
  simp [List.append_assoc]

theorem strIncl_pre (a b c : String) : strIncl (a ++ b) (a ++ (b ++ c)) := by
  refine ⟨[], c.data, ?_⟩
  simp [String.data_append, List.append_assoc]

/-! ## The node universe and the debug printer

`SQLNode::Print(std::ostream&)` (no tab argument) calls the virtual
`Print(output, SPACE_ST)`; each override first calls the base
`SQLNode::Print(output, tab)`, which writes `tab << SPACE_ED << name-of-kind`,
and then writes its own fields.  The printer below transcribes every override
in node.h statement by statement; stream insertions become string appends.
`LimitNode` defines NO `Print` override, so a limit node prints through the
inherited base method only (its count is not printed).  The `operator<<`
used for the having/order clauses of `SelectStmt::Print` is only declared in
node.h (defined in the missing node.cc); it is modelled from the spec's print
contract as the top-level `Print` of the node. -/

def SPACE_ST : String := "+"

def SPACE_ED : String := ""

/-- `SQLNode::Print(output, tab)`: `output << tab << SPACE_ED << name`. -/
def basePrint (ty : SQLNodeType) (tab : String) : String :=
  (tab ++ SPACE_ED) ++ NameOfSQLNodeType ty

mutual
/-- The embedded universe of nodes: one constructor per concrete node class of
node.h that a `SQLNode*` child slot can hold, with the fields its `Print`
override reads.  `base ty` stands for a plain `SQLNode` (or any class using
the inherited printer). -/
inductive PNode where
  | base (ty : SQLNodeType)
  | limit (cnt : Int)
  | constNull
  | constI (v : Int)
  | constL (v : Int)
  | constS (s : String)
  | column (colName relName : String)
  | table (orgName aliasName : String)
  | frameBound (bt : SQLNodeType) (offset : Option PNode)
  | frame (ft : SQLNodeType) (fstart fend : Option PNode)
  | resTarget (rname : String) (val : PNode)
  | orderBy (sortType : SQLNodeType) (order : Option PNode)
  | windowDef (wname : String) (parts ords : Option PList) (framePtr : Option PNode)
  | func (fname : String) (args : Option PList) (over : Option PNode)
  | select (selList tabrefList : Option PList) (whereC groupC havingC orderC : Option PNode)
      (winList : Option PList) (limitC : Option PNode)

/-- A `SQLNodeList` as the printer sees it: its `size_` and the chain of nodes
reachable from `head_`. -/
inductive PList where
  | mk (psize : Nat) (nodes : PNodes)

inductive PNodes where
  | nil
  | cons (n : PNode) (ns : PNodes)
end

def PList.psize : PList → Nat
  | .mk s _ => s

mutual
/-- The virtual `Print(output, tab)` of each node class, transcribed.  Each
optional child's branch pair (`NULL` label vs. recursive print) is factored
into a named helper below so that every node class has one defining
equation. -/
def nodePrint : PNode → String → String
  | .base ty, tab => basePrint ty tab
  | .limit _, tab => basePrint .kLimit tab
  | .constNull, tab =>
      basePrint .kNull tab ++ ("\n" ++ ((tab ++ "\t") ++ "value: unknow"))
  | .constI v, tab =>
      basePrint .kInt tab ++ ("\n" ++ ((tab ++ "\t") ++ ("value: " ++ toString v)))
  | .constL v, tab =>
      basePrint .kBigInt tab ++ ("\n" ++ ((tab ++ "\t") ++ ("value: " ++ toString v)))
  | .constS s, tab =>
      basePrint .kString tab ++ ("\n" ++ ((tab ++ "\t") ++ ("value: " ++ s)))
  | .column colName relName, tab =>
      basePrint .kColumn tab ++ ("\n" ++
        (((tab ++ "\t") ++ SPACE_ED) ++ ("column_ref: " ++ ("\x7brelation_name: " ++
          (relName ++ ("," ++ (" column_name: " ++ (colName ++ "\x7d"))))))))
  | .table orgName aliasName, tab =>
      basePrint .kTable tab ++ ("\n" ++
        (((tab ++ "\t") ++ SPACE_ED) ++ ("table: " ++ (orgName ++ (", alias: " ++ aliasName)))))
  | .frameBound bt off, tab =>
      basePrint .kFrameBound tab ++ ("\n" ++
        (((tab ++ "\t") ++ ("bound: " ++ (NameOfSQLNodeType bt ++ "\n"))) ++
          offsetPrint off ((tab ++ "\t") ++ "\t")))
  | .frame ft fstart fend, tab =>
      basePrint .kFrames tab ++ ("\n" ++
        (((tab ++ "\t") ++ ("frames_type_ : " ++ (NameOfSQLNodeType ft ++ "\n"))) ++
          (frameStartPrint fstart tab ++ frameEndPrint fend tab)))
  | .resTarget rname val, tab =>
      basePrint .kResTarget tab ++ ("\n" ++
        ((((tab ++ "\t") ++ SPACE_ED) ++ "val: \n") ++
          ((nodePrint val (tab ++ "\t\t") ++ "\n") ++
            ((((tab ++ "\t") ++ SPACE_ED) ++ "name: \n") ++ ((tab ++ "\t\t") ++ rname)))))
  | .orderBy st ord, tab =>
      basePrint .kOrderBy tab ++ ("\n" ++
        ((((tab ++ "\t") ++ SPACE_ED) ++ ("sort_type_: " ++ (NameOfSQLNodeType st ++ "\n"))) ++
          orderByChildPrint ord tab))
  | .windowDef wname parts ords framePtr, tab =>
      basePrint .kWindowDef tab ++ ("\n" ++
        (((tab ++ "\t") ++ ("window_name: " ++ (wname ++ "\n"))) ++
          (windowPartsPrint parts tab ++
            (windowOrdsPrint ords tab ++ windowFramePrint framePtr tab))))
  | .func fname args over, tab =>
      basePrint .kFunc tab ++ ("\n" ++
        ((((tab ++ "\t") ++ SPACE_ED) ++ ("function_name: " ++ fname)) ++
          ("\n" ++
            ((((tab ++ "\t") ++ SPACE_ED) ++ "args: \n") ++
              (funcArgsPrint args tab ++ ("\n" ++ funcOverPrint over tab))))))
  | .select selList tabrefList whereC groupC havingC orderC winList limitC, tab =>
      basePrint .kSelectStmt tab ++ ("\n" ++
        (selListPrint selList tab ++
         (tabrefListPrint tabrefList tab ++
          (whereClausePrint whereC tab ++
           (groupClausePrint groupC tab ++
            (havingClausePrint havingC tab ++
             (orderClausePrint orderC tab ++
              (windowListPrint winList tab ++ limitClausePrint limitC tab))))))))

/-- `FrameBound::Print`, offset part: `UNBOUNDED` at `space` when `offset_` is
`NULL`, else `offset_->Print(output, space)`. -/
def offsetPrint : Option PNode → String → String
  | none, space => space ++ "UNBOUNDED"
  | some o, space => nodePrint o space

/-- `FrameNode::Print`, start part. -/
def frameStartPrint : Option PNode → String → String
  | none, tab => (tab ++ "\t") ++ "start: UNBOUNDED: \n"
  | some sn, tab => ((tab ++ "\t") ++ "start: \n") ++
      (nodePrint sn ((tab ++ "\t") ++ "\t") ++ "\n")

/-- `FrameNode::Print`, end part. -/
def frameEndPrint : Option PNode → String → String
  | none, tab => (tab ++ "\t") ++ "end: UNBOUNDED"
  | some en, tab => ((tab ++ "\t") ++ "end: \n") ++ nodePrint en ((tab ++ "\t") ++ "\t")

/-- `OrderByNode::Print`, `order_by_` part. -/
def orderByChildPrint : Option PNode → String → String
  | none, tab => (((tab ++ "\t") ++ SPACE_ED) ++ "order_by_: NULL\n")
  | some o, tab => ((((tab ++ "\t") ++ SPACE_ED) ++ "order_by_: \n") ++
      (nodePrint o (((tab ++ "\t") ++ "\t") ++ SPACE_ED) ++ "\n"))

/-- `WindowDefNode::Print`, partition list part. -/
def windowPartsPrint : Option PList → String → String
  | none, tab => (tab ++ "\t") ++ "partition_list_ptr_: NULL\n"
  | some l, tab => (((tab ++ "\t") ++ "partition_list_ptr_: \n") ++
      (listPrint l ((tab ++ "\t") ++ "\t") ++ "\n"))

/-- `WindowDefNode::Print`, order list part. -/
def windowOrdsPrint : Option PList → String → String
  | none, tab => (tab ++ "\t") ++ "order_list_ptr_: NULL\n"
  | some l, tab => (((tab ++ "\t") ++ "order_list_ptr_: \n") ++
      (listPrint l ((tab ++ "\t") ++ "\t") ++ "\n"))

/-- `WindowDefNode::Print`, frame part. -/
def windowFramePrint : Option PNode → String → String
  | none, tab => (tab ++ "\t") ++ "frame_ptr: NULL"
  | some f, tab => (((tab ++ "\t") ++ "frame_ptr: \n") ++
      nodePrint f ((tab ++ "\t") ++ "\t"))

/-- `FuncNode::Print`, args part: `[]` when `args_` is `NULL` or its `size_`
is 0, else the list printer. -/
def funcArgsPrint : Option PList → String → String
  | none, tab => (tab ++ "\t\t") ++ "[]"
  | some l, tab =>
      if l.psize = 0 then (tab ++ "\t\t") ++ "[]" else listPrint l (tab ++ "\t\t")

/-- `FuncNode::Print`, over part. -/
def funcOverPrint : Option PNode → String → String
  | none, tab => (((tab ++ "\t") ++ SPACE_ED) ++ "over: NULL\n")
  | some o, tab => ((((tab ++ "\t") ++ SPACE_ED) ++ "over: \n") ++
      nodePrint o (tab ++ "\t\t"))

/-- `SelectStmt::Print`, select list part. -/
def selListPrint : Option PList → String → String
  | none, tab => (tab ++ "\t") ++ "select_list_ptr_: NULL\n"
  | some l, tab => (((tab ++ "\t") ++ "select_list: \n") ++
      (listPrint l ((tab ++ "\t") ++ "\t") ++ "\n"))

/-- `SelectStmt::Print`, table reference list part. -/
def tabrefListPrint : Option PList → String → String
  | none, tab => (tab ++ "\t") ++ "tableref_list_ptr_: NULL\n"
  | some l, tab => (((tab ++ "\t") ++ "tableref_list_ptr_: \n") ++
      (listPrint l ((tab ++ "\t") ++ "\t") ++ "\n"))

/-- `SelectStmt::Print`, where clause part. -/
def whereClausePrint : Option PNode → String → String
  | none, tab => (tab ++ "\t") ++ "where_clause_: NULL\n"
  | some n, tab => (((tab ++ "\t") ++ "where_clause_: \n") ++
      (nodePrint n (tab ++ "\t") ++ "\n"))

/-- `SelectStmt::Print`, group clause part. -/
def groupClausePrint : Option PNode → String → String
  | none, tab => (tab ++ "\t") ++ "group_clause_: NULL\n"
  | some n, tab => (((tab ++ "\t") ++ "group_clause_: \n") ++
      (nodePrint n (tab ++ "\t") ++ "\n"))

/-- `SelectStmt::Print`, having clause part; a present clause goes through the
stream `operator<<` (declared in node.h, defined in the missing node.cc),
modelled from the spec's print contract as the top-level `Print`. -/
def havingClausePrint : Option PNode → String → String
  | none, tab => (tab ++ "\t") ++ "having_clause_: NULL\n"
  | some n, tab => (tab ++ "\t") ++ ("having_clause_: " ++ (nodePrint n SPACE_ST ++ "\n"))

/-- `SelectStmt::Print`, order clause part; same `operator<<` note as the
having clause. -/
def orderClausePrint : Option PNode → String → String
  | none, tab => (tab ++ "\t") ++ "order_clause_: NULL\n"
  | some n, tab => (tab ++ "\t") ++ ("order_clause_: " ++ (nodePrint n SPACE_ST ++ "\n"))

/-- `SelectStmt::Print`, window list part. -/
def windowListPrint : Option PList → String → String
  | none, tab => (tab ++ "\t") ++ "window_list_ptr_: NULL\n"
  | some l, tab => (((tab ++ "\t") ++ "window_list_ptr_: \n") ++
      (listPrint l ((tab ++ "\t") ++ "\t") ++ "\n"))

/-- `SelectStmt::Print`, limit clause part. -/
def limitClausePrint : Option PNode → String → String
  | none, tab => (tab ++ "\t") ++ "limit_clause_: NULL\n"
  | some n, tab => (((tab ++ "\t") ++ "limit_clause_: \n") ++
      (nodePrint n (tab ++ "\t") ++ "\n"))

/-- `SQLNodeList::Print(output, tab)`: `[]` when `size_` is 0 or `head_` is
`NULL`; otherwise a bracketed block with each element printed one tab deeper,
each followed by a newline. -/
def listPrint : PList → String → String
  | .mk 0 _, tab => tab ++ "[]"
  | .mk (_ + 1) .nil, tab => tab ++ "[]"
  | .mk (_ + 1) (.cons n ns), tab =>
      (tab ++ "[\n") ++
        (((nodePrint n (tab ++ "\t") ++ "\n") ++ nodesPrint ns (tab ++ "\t")) ++ (tab ++ "]"))

def nodesPrint : PNodes → String → String
  | .nil, _ => ""
  | .cons n ns, space => (nodePrint n space ++ "\n") ++ nodesPrint ns space
end

/-- The kind tag (`type_`) a node carries, per constructor. -/
def PNode.typeOf : PNode → SQLNodeType
  | .base ty => ty
  | .limit _ => .kLimit
  | .constNull => .kNull
  | .constI _ => .kInt
  | .constL _ => .kBigInt
  | .constS _ => .kString
  | .column _ _ => .kColumn
  | .table _ _ => .kTable
  | .frameBound _ _ => .kFrameBound
  | .frame _ _ _ => .kFrames
  | .resTarget _ _ => .kResTarget
  | .orderBy _ _ => .kOrderBy
  | .windowDef _ _ _ _ => .kWindowDef
  | .func _ _ _ => .kFunc
  | .select _ _ _ _ _ _ _ _ => .kSelectStmt

/-- `SQLNode::Print(output)` — the top-level overload with no tab argument:
`Print(output, SPACE_ST)`. -/
def PrintTop (n : PNode) : String := nodePrint n SPACE_ST

/-- The first whitespace-delimited token of a string. -/
def firstToken (s : String) : String :=
  ((s.data.dropWhile Char.isWhitespace).takeWhile (fun c => !c.isWhitespace)).asString

theorem basePrint_app_rest (ty : SQLNodeType) (tab r : String) :
    ∃ rest, basePrint ty tab ++ r = (tab ++ SPACE_ED) ++ (NameOfSQLNodeType ty ++ rest) :=
  ⟨r, by rw [basePrint, String.append_assoc]⟩

theorem basePrint_plain (ty : SQLNodeType) (tab : String) :
    ∃ rest, basePrint ty tab = (tab ++ SPACE_ED) ++ (NameOfSQLNodeType ty ++ rest) :=
  ⟨"", by rw [basePrint, String.append_empty]⟩

/-- C3 counterexample: the first whitespace-delimited token of the top-level
debug print is not the kind name: the overload with no tab argument passes
`SPACE_ST` (`"+"`) as the indentation, and the base printer writes it directly
in front of the name, so for a limit node the first token is `"+kLimit"`. -/
theorem printTop_firstToken_ne_kindName :
    firstToken (PrintTop (PNode.limit 10)) ≠
      NameOfSQLNodeType (PNode.limit 10).typeOf ∧
    firstToken (PrintTop (PNode.limit 10)) = "+kLimit" := by
  decide

/-- C3 as amended: for every constructed node, the top-level debug print
equals `SPACE_ST` (then the empty `SPACE_ED`) followed immediately by the name
of the node's kind and the rest of the dump; the kind name is the first thing
printed after the one-character indentation prefix. -/
theorem printTop_begins_with_kind_name (n : PNode) :
    ∃ rest, PrintTop n = (SPACE_ST ++ SPACE_ED) ++ (NameOfSQLNodeType n.typeOf ++ rest) := by
  cases n with
  | base ty => exact basePrint_plain ty SPACE_ST
  | limit cnt => exact basePrint_plain .kLimit SPACE_ST
  | constNull => exact basePrint_app_rest _ _ _
  | constI v => exact basePrint_app_rest _ _ _
  | constL v => exact basePrint_app_rest _ _ _
  | constS s => exact basePrint_app_rest _ _ _
  | column c r => exact basePrint_app_rest _ _ _
  | table o a => exact basePrint_app_rest _ _ _
  | frameBound bt off =>
    simp only [PrintTop, nodePrint, PNode.typeOf]
    exact basePrint_app_rest _ _ _
  | frame ft s e =>
    simp only [PrintTop, nodePrint, PNode.typeOf]
    exact basePrint_app_rest _ _ _
  | resTarget rn v =>
    simp only [PrintTop, nodePrint, PNode.typeOf]
    exact basePrint_app_rest _ _ _
  | orderBy st o =>
    simp only [PrintTop, nodePrint, PNode.typeOf]
    exact basePrint_app_rest _ _ _
  | windowDef w p o f =>
    simp only [PrintTop, nodePrint, PNode.typeOf]
    exact basePrint_app_rest _ _ _
  | func f a o =>
    simp only [PrintTop, nodePrint, PNode.typeOf]
    exact basePrint_app_rest _ _ _
  | select a b c d e f g h =>
    simp only [PrintTop, nodePrint, PNode.typeOf]
    exact basePrint_app_rest _ _ _

/-- The frame of spec Example 3: type ROWS, start = 3 PRECEDING, end =
CURRENT with a `NULL` offset. -/
def rowsFrameEx : PNode :=
  .frame .kFrameRows (some (.frameBound .kPreceding (some (.constI 3))))
    (some (.frameBound .kCurrent none))

/-- A frame with both bounds present: start bound of kind `bt1` with optional
offset `off1`, end bound of kind `bt2` with optional offset `off2`. -/
def bothBoundsFrame (ft bt1 bt2 : SQLNodeType) (off1 off2 : Option PNode) : PNode :=
  .frame ft (some (.frameBound bt1 off1)) (some (.frameBound bt2 off2))

/-- The indentation at which a frame bound's offset is printed when the frame
is printed at top level: the frame prints at `SPACE_ST`, its bounds two tabs
deeper, and each bound's offset two tabs deeper still. -/
def offsetIndent : String := (((SPACE_ST ++ "\t") ++ "\t") ++ "\t") ++ "\t"

/-- C6: a frame with an absent start bound prints `UNBOUNDED` on the start
line, and one with an absent end bound prints `UNBOUNDED` on the end line.
For every frame whose bounds are both present, the output contains the frame
type's name and each bound's kind name; when a bound carries a present offset
the offset node's full printout appears (at `offsetIndent`), and for an
integer-constant offset in particular the line `value: <offset>` appears.
Finally, the Example 3 frame (ROWS, 3 PRECEDING, CURRENT) prints the frame
type `ROWS`, the start bound kind `PRECEDING` with offset value 3, and the end
bound kind `CURRENT` with no offset value (the offset slot prints the
`UNBOUNDED` marker). -/
theorem frame_print_bounds :
    (∀ (ft : SQLNodeType) (e : Option PNode),
        strIncl "start: UNBOUNDED" (nodePrint (.frame ft none e) SPACE_ST)) ∧
    (∀ (ft : SQLNodeType) (s : Option PNode),
        strIncl "end: UNBOUNDED" (nodePrint (.frame ft s none) SPACE_ST)) ∧
    (∀ (ft bt1 bt2 : SQLNodeType) (off1 off2 : Option PNode),
        strIncl ("frames_type_ : " ++ NameOfSQLNodeType ft)
          (nodePrint (bothBoundsFrame ft bt1 bt2 off1 off2) SPACE_ST) ∧
        strIncl ("bound: " ++ NameOfSQLNodeType bt1)
          (nodePrint (bothBoundsFrame ft bt1 bt2 off1 off2) SPACE_ST) ∧
        strIncl ("bound: " ++ NameOfSQLNodeType bt2)
          (nodePrint (bothBoundsFrame ft bt1 bt2 off1 off2) SPACE_ST)) ∧
    (∀ (ft bt1 bt2 : SQLNodeType) (o : PNode) (off2 : Option PNode),
        strIncl (nodePrint o offsetIndent)
          (nodePrint (bothBoundsFrame ft bt1 bt2 (some o) off2) SPACE_ST)) ∧
    (∀ (ft bt1 bt2 : SQLNodeType) (off1 : Option PNode) (o : PNode),
        strIncl (nodePrint o offsetIndent)
          (nodePrint (bothBoundsFrame ft bt1 bt2 off1 (some o)) SPACE_ST)) ∧
    (∀ (ft bt1 bt2 : SQLNodeType) (v : Int) (off2 : Option PNode),
        strIncl ("value: " ++ toString v)
          (nodePrint (bothBoundsFrame ft bt1 bt2 (some (.constI v)) off2) SPACE_ST)) ∧
    (∀ (ft bt1 bt2 : SQLNodeType) (off1 : Option PNode) (v : Int),
        strIncl ("value: " ++ toString v)
          (nodePrint (bothBoundsFrame ft bt1 bt2 off1 (some (.constI v))) SPACE_ST)) ∧
    PrintTop rowsFrameEx =
      "+kFrames\n+\tframes_type_ : ROWS\n+\tstart: \n+\t\tkFrameBound\n+\t\t\tbound: PRECEDING\n+\t\t\t\tkInt\n+\t\t\t\t\tvalue: 3\n+\tend: \n+\t\tkFrameBound\n+\t\t\tbound: CURRENT\n+\t\t\t\tUNBOUNDED" := by
  refine ⟨?_, ?_, ?_, ?_, ?_, ?_, ?_, by decide⟩
  · intro ft e
    simp only [nodePrint]
    apply strIncl_appL
    apply strIncl_appL
    apply strIncl_appL
    apply strIncl_appR
    decide
  · intro ft s
    simp only [nodePrint]
    apply strIncl_appL
    apply strIncl_appL
    apply strIncl_appL
    apply strIncl_appL
    decide
  · intro ft bt1 bt2 off1 off2
    simp only [bothBoundsFrame, nodePrint, frameStartPrint, frameEndPrint]
    refine ⟨?_, ?_, ?_⟩
    · apply strIncl_appL
      apply strIncl_appL
      apply strIncl_appR
      apply strIncl_appL
      exact strIncl_pre _ _ _
    · apply strIncl_appL
      apply strIncl_appL
      apply strIncl_appL
      apply strIncl_appR
      apply strIncl_appL
      apply strIncl_appR
      apply strIncl_appL
      apply strIncl_appL
      apply strIncl_appR
      apply strIncl_appL
      exact strIncl_pre _ _ _
    · apply strIncl_appL
      apply strIncl_appL
      apply strIncl_appL
      apply strIncl_appL
      apply strIncl_appL
      apply strIncl_appL
      apply strIncl_appL
      apply strIncl_appR
      apply strIncl_appL
      exact strIncl_pre _ _ _
  · intro ft bt1 bt2 o off2
    simp only [bothBoundsFrame, nodePrint, frameStartPrint, frameEndPrint, offsetPrint]
    apply strIncl_appL
    apply strIncl_appL
    apply strIncl_appL
    apply strIncl_appR
    apply strIncl_appL
    apply strIncl_appR
    apply strIncl_appL
    apply strIncl_appL
    apply strIncl_appL
    exact strIncl_self _
  · intro ft bt1 bt2 off1 o
    simp only [bothBoundsFrame, nodePrint, frameStartPrint, frameEndPrint, offsetPrint]
    apply strIncl_appL
    apply strIncl_appL
    apply strIncl_appL
    apply strIncl_appL
    apply strIncl_appL
    apply strIncl_appL
    apply strIncl_appL
    apply strIncl_appL
    exact strIncl_self _
  · intro ft bt1 bt2 v off2
    simp only [bothBoundsFrame, nodePrint, frameStartPrint, frameEndPrint, offsetPrint]
    apply strIncl_appL
    apply strIncl_appL
    apply strIncl_appL
    apply strIncl_appR
    apply strIncl_appL
    apply strIncl_appR
    apply strIncl_appL
    apply strIncl_appL
    apply strIncl_appL
    apply strIncl_appL
    apply strIncl_appL
    apply strIncl_appL
    exact strIncl_self _
  · intro ft bt1 bt2 off1 v
    simp only [bothBoundsFrame, nodePrint, frameStartPrint, frameEndPrint, offsetPrint]
    apply strIncl_appL
    apply strIncl_appL
    apply strIncl_appL
    apply strIncl_appL
    apply strIncl_appL
    apply strIncl_appL
    apply strIncl_appL
    apply strIncl_appL
    apply strIncl_appL
    apply strIncl_appL
    apply strIncl_appL
    exact strIncl_self _

/-! ## `SelectStmt` construction interface -/

/-- The fields of `SelectStmt` (child slots; `NULL` = `none`). -/
structure SelectStmt where
  distinct_opt : Int
  limit : Option PNode
  select_list : Option PList
  tableref_list : Option PList
  where_clause : Option PNode
  group_clause : Option PNode
  having_clause : Option PNode
  order_clause : Option PNode
  window_list : Option PList

/-- `SelectStmt()` : every child pointer `NULL`, `distinct_opt_(0)`. -/
def SelectStmt.new : SelectStmt :=
  ⟨0, none, none, none, none, none, none, none, none⟩

/-- The friend `FillSelectAttributions`: writes exactly the select list, the
table reference list, the window list and the limit — nothing else. -/
def FillSelectAttributions (s : SelectStmt) (sel tabr win : Option PList)
    (lim : Option PNode) : SelectStmt :=
  { s with select_list := sel, tableref_list := tabr, window_list := win, limit := lim }

/-- View a built select statement in the printable node universe. -/
def SelectStmt.toPNode (s : SelectStmt) : PNode :=
  .select s.select_list s.tableref_list s.where_clause s.group_clause
    s.having_clause s.order_clause s.window_list s.limit

/-- One call to `FillSelectAttributions`, as data. -/
structure FillArgs where
  sel : Option PList
  tabr : Option PList
  win : Option PList
  lim : Option PNode

/-- Any select statement reachable through the construction interface: the
constructor followed by a sequence of `FillSelectAttributions` calls. -/
def buildSelect (fills : List FillArgs) : SelectStmt :=
  fills.foldl (fun s f => FillSelectAttributions s f.sel f.tabr f.win f.lim)
    SelectStmt.new

theorem fillFold_clauses (fills : List FillArgs) (s : SelectStmt) :
    (fills.foldl (fun s f => FillSelectAttributions s f.sel f.tabr f.win f.lim)
      s).where_clause = s.where_clause ∧
    (fills.foldl (fun s f => FillSelectAttributions s f.sel f.tabr f.win f.lim)
      s).group_clause = s.group_clause ∧
    (fills.foldl (fun s f => FillSelectAttributions s f.sel f.tabr f.win f.lim)
      s).having_clause = s.having_clause ∧
    (fills.foldl (fun s f => FillSelectAttributions s f.sel f.tabr f.win f.lim)
      s).order_clause = s.order_clause := by
  induction fills generalizing s with
  | nil => exact ⟨rfl, rfl, rfl, rfl⟩
  | cons f fills ih =>
    simpa [FillSelectAttributions] using
      ih (FillSelectAttributions s f.sel f.tabr f.win f.lim)

/-- C9: however a select statement is built through the construction interface
(constructor plus any sequence of `FillSelectAttributions` calls), its where,
group, having and order clauses are `NULL`, and its debug print therefore
contains the four consecutive `NULL` clause lines. -/
theorem select_optional_clauses_always_null (fills : List FillArgs) :
    (buildSelect fills).where_clause = none ∧
    (buildSelect fills).group_clause = none ∧
    (buildSelect fills).having_clause = none ∧
    (buildSelect fills).order_clause = none ∧
    strIncl
      "+\twhere_clause_: NULL\n+\tgroup_clause_: NULL\n+\thaving_clause_: NULL\n+\torder_clause_: NULL\n"
      (PrintTop (buildSelect fills).toPNode) := by
  have hfold := fillFold_clauses fills SelectStmt.new
  have hw : (buildSelect fills).where_clause = none := hfold.1
  have hg : (buildSelect fills).group_clause = none := hfold.2.1
  have hh : (buildSelect fills).having_clause = none := hfold.2.2.1
  have ho : (buildSelect fills).order_clause = none := hfold.2.2.2
  refine ⟨hw, hg, hh, ho, ?_⟩
  simp only [PrintTop, SelectStmt.toPNode, hw, hg, hh, ho, nodePrint,
    whereClausePrint, groupClausePrint, havingClausePrint, orderClausePrint]
  apply strIncl_appL
  apply strIncl_appL
  apply strIncl_appL
  apply strIncl_appL
  rw [← String.append_assoc, ← String.append_assoc, ← String.append_assoc]
  apply strIncl_appR
  decide

/-! ## C4: select statement with empty target list and limit 10 -/

/-- The select statement of spec Example 2, built through the construction
interface: empty select-target list (a `SQLNodeList` with `size_ = 0`), no
table references, no windows, and a `LimitNode(10)` as the limit child. -/
def selectEx2 : SelectStmt :=
  FillSelectAttributions SelectStmt.new (some (PList.mk 0 PNodes.nil)) none none
    (some (PNode.limit 10))

set_option maxRecDepth 20000 in
/-- C4 counterexample: the target list does print as the token `[]`, but the
limit clause does not print as a node containing the value 10 — the digits
`10` appear nowhere in the output, because `LimitNode` defines no `Print`
override and so prints through the inherited base method, which writes only
the kind name. -/
theorem selectEx2_limit_value_not_printed :
    strIncl "[]" (PrintTop selectEx2.toPNode) ∧
    ¬ strIncl "10" (PrintTop selectEx2.toPNode) := by
  decide

set_option maxRecDepth 20000 in
/-- C4 as amended: printing the Example 2 select statement renders the empty
target list as `[]` and the limit clause as the bare limit node kind name
(`LimitNode` inherits `SQLNode::Print`; its stored count 10 — still returned
by `GetLimitCount` — is absent from the output). -/
theorem selectEx2_print_exact :
    PrintTop selectEx2.toPNode =
      "+kSelectStmt\n+\tselect_list: \n+\t\t[]\n+\ttableref_list_ptr_: NULL\n+\twhere_clause_: NULL\n+\tgroup_clause_: NULL\n+\thaving_clause_: NULL\n+\torder_clause_: NULL\n+\twindow_list_ptr_: NULL\n+\tlimit_clause_: \n+\tkLimit\n" := by
  decide

/-! ## `ConstNode`: the literal node

The union `val_` holds exactly one representation, selected by the kind tag
set at construction.  Float/double payloads are modelled by their bit
representations: the node only stores and returns them, performing no
arithmetic.  Reading the union through a member other than the one the
constructor wrote is undefined in C++; the accessors therefore return
`Option`, with `none` for a mismatched read.  The `const std::string&`
constructor stores `val.c_str()` — a pointer into the argument's buffer, not
an owned copy; that lifetime hazard is outside this value-level model, which
records only the text stored. -/

inductive ConstVal where
  | vnone
  | vint (v : Int)
  | vlong (v : Int)
  | vfloat (bits : Nat)
  | vdouble (bits : Nat)
  | vstr (s : String)
deriving DecidableEq

structure ConstNode where
  type : SQLNodeType
  val : ConstVal
deriving DecidableEq

/-- `ConstNode()` : kind `kNull`, union untouched. -/
def ConstNode.ofNull : ConstNode := ⟨.kNull, .vnone⟩

/-- `ConstNode(int val)` : kind `kInt`, `val_.vint = val`. -/
def ConstNode.ofInt (v : Int) : ConstNode := ⟨.kInt, .vint v⟩

/-- `ConstNode(long val)` : kind `kBigInt`, `val_.vlong = val`. -/
def ConstNode.ofLong (v : Int) : ConstNode := ⟨.kBigInt, .vlong v⟩

/-- `ConstNode(float val)` : kind `kFloat`, `val_.vfloat = val`. -/
def ConstNode.ofFloat (bits : Nat) : ConstNode := ⟨.kFloat, .vfloat bits⟩

/-- `ConstNode(double val)` : kind `kDouble`, `val_.vdouble = val`. -/
def ConstNode.ofDouble (bits : Nat) : ConstNode := ⟨.kDouble, .vdouble bits⟩

/-- `ConstNode(const char *val)` : kind `kString`, `val_.vstr = val`. -/
def ConstNode.ofCharPtr (s : String) : ConstNode := ⟨.kString, .vstr s⟩

/-- `ConstNode(const std::string &val)` : kind `kString`,
`val_.vstr = val.c_str()` (see the lifetime note above). -/
def ConstNode.ofStdString (s : String) : ConstNode := ⟨.kString, .vstr s⟩

def ConstNode.GetInt : ConstNode → Option Int
  | ⟨_, .vint v⟩ => some v
  | _ => none

def ConstNode.GetLong : ConstNode → Option Int
  | ⟨_, .vlong v⟩ => some v
  | _ => none

def ConstNode.GetFloat : ConstNode → Option Nat
  | ⟨_, .vfloat b⟩ => some b
  | _ => none

def ConstNode.GetDouble : ConstNode → Option Nat
  | ⟨_, .vdouble b⟩ => some b
  | _ => none

def ConstNode.GetStr : ConstNode → Option String
  | ⟨_, .vstr s⟩ => some s
  | _ => none

/-- C5: for every literal kind and every representable value of that kind —
32-bit ints in [-2^31, 2^31), 64-bit longs in [-2^63, 2^63), float/double bit
patterns below 2^32 / 2^64, arbitrary text (both text constructors) — the
constructor stores the value under the matching kind tag and the matching
accessor returns it unchanged; the null literal carries kind `kNull`. -/
theorem constNode_roundtrip (i lv : Int) (fb db : Nat) (s1 s2 : String)
    (hi : -(2 ^ 31) ≤ i ∧ i < 2 ^ 31) (hl : -(2 ^ 63) ≤ lv ∧ lv < 2 ^ 63)
    (hf : fb < 2 ^ 32) (hd : db < 2 ^ 64) :
    ConstNode.ofNull.type = .kNull ∧
    (ConstNode.ofInt i).GetInt = some i ∧ (ConstNode.ofInt i).type = .kInt ∧
    (ConstNode.ofLong lv).GetLong = some lv ∧ (ConstNode.ofLong lv).type = .kBigInt ∧
    (ConstNode.ofFloat fb).GetFloat = some fb ∧ (ConstNode.ofFloat fb).type = .kFloat ∧
    (ConstNode.ofDouble db).GetDouble = some db ∧ (ConstNode.ofDouble db).type = .kDouble ∧
    (ConstNode.ofCharPtr s1).GetStr = some s1 ∧ (ConstNode.ofCharPtr s1).type = .kString ∧
    (ConstNode.ofStdString s2).GetStr = some s2 ∧ (ConstNode.ofStdString s2).type = .kString :=
  ⟨rfl, rfl, rfl, rfl, rfl, rfl, rfl, rfl, rfl, rfl, rfl, rfl, rfl⟩

/-- Witness for C5 at boundary values: the most negative 32-bit int, long 0,
zero float/double patterns, the empty text for the `char*` constructor and the
spec's Example 1 text `"abc"` for the `std::string` constructor. -/
theorem constNode_roundtrip_witness :
    ((-(2 ^ 31) ≤ (-(2 ^ 31) : Int) ∧ (-(2 ^ 31) : Int) < 2 ^ 31) ∧
      (-(2 ^ 63) ≤ (0 : Int) ∧ (0 : Int) < 2 ^ 63) ∧
      (0 : Nat) < 2 ^ 32 ∧ (0 : Nat) < 2 ^ 64) ∧
    (ConstNode.ofNull.type = .kNull ∧
      (ConstNode.ofInt (-(2 ^ 31))).GetInt = some (-(2 ^ 31)) ∧
      (ConstNode.ofInt (-(2 ^ 31))).type = .kInt ∧
      (ConstNode.ofLong 0).GetLong = some 0 ∧ (ConstNode.ofLong 0).type = .kBigInt ∧
      (ConstNode.ofFloat 0).GetFloat = some 0 ∧ (ConstNode.ofFloat 0).type = .kFloat ∧
      (ConstNode.ofDouble 0).GetDouble = some 0 ∧ (ConstNode.ofDouble 0).type = .kDouble ∧
      (ConstNode.ofCharPtr "").GetStr = some "" ∧ (ConstNode.ofCharPtr "").type = .kString ∧
      (ConstNode.ofStdString "abc").GetStr = some "abc" ∧
      (ConstNode.ofStdString "abc").type = .kString) :=
  ⟨⟨⟨by decide, by decide⟩, ⟨by decide, by decide⟩, by decide, by decide⟩,
    constNode_roundtrip (-(2 ^ 31)) 0 0 0 "" "abc"
      ⟨by decide, by decide⟩ ⟨by decide, by decide⟩ (by decide) (by decide)⟩

/-! ## C8: constructor initialization of owned pointers vs. destructors -/

/-- The state of an owned pointer member right after a constructor body runs:
written with a pointer value (`.ptr none` is `NULL`), or never written —
indeterminate. -/
inductive OwnedPtrInit where
  | ptr (v : Option Nat)
  | indeterminate
deriving DecidableEq

/-- `ResTarget`'s owned pointer members and name, by constructor. -/
structure ResTarget where
  indirection_ : OwnedPtrInit
  val_ : OwnedPtrInit
  name_ : String
deriving DecidableEq

/-- `ResTarget()` : initializer list sets nothing — both owned pointers are
indeterminate. -/
def ResTarget.ctorDefault : ResTarget := ⟨.indeterminate, .indeterminate, ""⟩

/-- `ResTarget(const std::string &name, SQLNode *val)` : sets `name_` and
`val_`; `indirection_` is never initialized. -/
def ResTarget.ctorNameVal (rname : String) (val : Nat) : ResTarget :=
  ⟨.indeterminate, .ptr (some val), rname⟩

/-- `ResTarget(uint32_t line_num, uint32_t location)` : sets
`indirection_(NULL)`; `val_` is never initialized. -/
def ResTarget.ctorPos (lineNum location : Nat) : ResTarget :=
  ⟨.ptr none, .indeterminate, ""⟩

/-- `~ResTarget()` : `delete val_; delete indirection_;` — the pointers the
destructor passes to `delete`, in order. -/
def ResTarget.dtorDeletes (r : ResTarget) : List OwnedPtrInit :=
  [r.val_, r.indirection_]

/-- `FrameBound`'s members, by constructor. -/
structure FrameBound where
  bound_type_ : SQLNodeType
  offset_ : OwnedPtrInit
deriving DecidableEq

/-- `FrameBound()` : `bound_type_(kPreceding), offset_(NULL)`. -/
def FrameBound.ctorDefault : FrameBound := ⟨.kPreceding, .ptr none⟩

/-- `FrameBound(SQLNodeType bound_type)` : sets only `bound_type_`;
`offset_` is never initialized. -/
def FrameBound.ctorType (bt : SQLNodeType) : FrameBound := ⟨bt, .indeterminate⟩

/-- `FrameBound(SQLNodeType bound_type, SQLNode *offset)`. -/
def FrameBound.ctorTypeOffset (bt : SQLNodeType) (off : Option Nat) : FrameBound :=
  ⟨bt, .ptr off⟩

/-- `~FrameBound()` : `delete offset_;`. -/
def FrameBound.dtorDeletes (fb : FrameBound) : List OwnedPtrInit :=
  [fb.offset_]

/-- C8 fails on the code: destroying a `ResTarget` built by the
`ResTarget(name, val)` constructor — the shape a select statement's result
target takes — passes the never-initialized `indirection_` member to `delete`,
an indeterminate pointer, so destruction does not destroy exactly the owned
children; the `(line_num, location)` constructor's `indirection_(NULL)` (and
the default `FrameBound()`'s `offset_(NULL)`) show the intended
initialization, which the `ResTarget(name, val)` and `FrameBound(bound_type)`
constructors omit.  That `(line_num, location)` constructor in turn leaves
`val_` indeterminate and deleted. -/
theorem resTarget_dtor_deletes_indeterminate :
    (ResTarget.ctorNameVal "col" 0).indirection_ = .indeterminate ∧
    OwnedPtrInit.indeterminate ∈ (ResTarget.ctorNameVal "col" 0).dtorDeletes ∧
    (ResTarget.ctorPos 1 1).indirection_ = .ptr none ∧
    (ResTarget.ctorPos 1 1).val_ = .indeterminate ∧
    OwnedPtrInit.indeterminate ∈ (ResTarget.ctorDefault).dtorDeletes ∧
    (FrameBound.ctorType .kCurrent).offset_ = .indeterminate ∧
    OwnedPtrInit.indeterminate ∈ (FrameBound.ctorType .kCurrent).dtorDeletes ∧
    (FrameBound.ctorDefault).offset_ = .ptr none := by
  decide
